import Mathlib

/-!
Shallow embedding of the bookstore ETL pipeline (`src/etl.py`).

The pipeline is `extract_data` (CSV read, out of scope here), `transform_data`
(pandas frame cleaning), `load_data` (PostgreSQL fact replace plus dimension
insert), and `run_analytics` (four fixed SQL aggregations).

Modelling conventions:
- a pandas frame is a `List` of typed rows; raw CSV cells are either strings,
  numbers, or null (`NaN`);
- pandas float64 numbers are modelled as exact rationals `ℚ` (the claims under
  study are about exact arithmetic identities, not float rounding);
- `pd.to_numeric` / `pd.to_datetime` are modelled on their documented default
  `errors='raise'` behaviour, restricted to plain decimal literals and ISO
  `YYYY-MM-DD` date strings (the only shapes the claims exercise); raising is
  modelled with `Except`;
- text handling is ASCII (`Char.toUpper`/`Char.toLower`), which covers every
  string appearing in the claims;
- the PostgreSQL store is a record of relations; `to_sql(if_exists='replace')`
  is relation replacement, and `INSERT ... ON CONFLICT (title, author) DO
  NOTHING` follows PostgreSQL's documented arbiter rule: it requires a unique
  constraint or index matching `(title, author)` and fails otherwise. Each
  executed statement's effect is modelled as immediately durable.
-/

/-- Calendar date, as produced by the date coercion of `transform_data`. -/
structure Date where
  year : Nat
  month : Nat
  day : Nat
deriving DecidableEq, Repr

/-- Split a character list on a separator character (used for ISO dates). -/
def splitOnChar (sep : Char) : List Char → List (List Char)
  | [] => [[]]
  | c :: cs =>
    let r := splitOnChar sep cs
    if c = sep then [] :: r
    else
      match r with
      | [] => [[c]]
      | w :: ws => (c :: w) :: ws

/-- Decimal digits to a natural number. -/
def digitsToNat (cs : List Char) : Nat :=
  cs.foldl (fun n c => 10 * n + (c.toNat - 48)) 0

/-- Parse a non-empty all-digit character list. -/
def digitsToNatOpt (cs : List Char) : Option Nat :=
  if cs.all Char.isDigit && !cs.isEmpty then some (digitsToNat cs) else none

/-- Parse an ISO `YYYY-MM-DD` date string; models the date shapes accepted by
`pd.to_datetime` that this repository's data uses.  `none` models a parse
failure (which `pd.to_datetime` raises on, see `toDatetimeOpt`). -/
def parseDate (s : String) : Option Date :=
  match splitOnChar '-' s.data with
  | [ys, ms, ds] =>
    match digitsToNatOpt ys, digitsToNatOpt ms, digitsToNatOpt ds with
    | some y, some m, some d =>
      if 1 ≤ m ∧ m ≤ 12 ∧ 1 ≤ d ∧ d ≤ 31 then some ⟨y, m, d⟩ else none
    | _, _, _ => none
  | _ => none

/-- Parse a decimal number literal (optional sign, optional fractional part);
models the numeric strings accepted by `pd.to_numeric`.  `none` models a parse
failure (which `pd.to_numeric` raises on, see `toNumeric`). -/
def parseNum (s : String) : Option ℚ :=
  let cs0 := s.data
  let sign : ℚ := match cs0 with
    | '-' :: _ => -1
    | _ => 1
  let cs := match cs0 with
    | '-' :: rest => rest
    | '+' :: rest => rest
    | _ => cs0
  let intPart := cs.takeWhile Char.isDigit
  let rest := cs.dropWhile Char.isDigit
  match rest with
  | [] => if intPart.isEmpty then none else some (sign * (digitsToNat intPart : ℚ))
  | '.' :: frac =>
    if frac.all Char.isDigit && !(intPart.isEmpty && frac.isEmpty) then
      some (sign * ((digitsToNat intPart : ℚ) +
        (digitsToNat frac : ℚ) / ((10 : ℚ) ^ frac.length)))
    else none
  | _ => none

/-- `pandas` `Series.dt.month_name()` for a month number. -/
def monthName (m : Nat) : String :=
  match m with
  | 1 => "January"
  | 2 => "February"
  | 3 => "March"
  | 4 => "April"
  | 5 => "May"
  | 6 => "June"
  | 7 => "July"
  | 8 => "August"
  | 9 => "September"
  | 10 => "October"
  | 11 => "November"
  | 12 => "December"
  | _ => ""

/-- `pandas` `Series.dt.day_name()`: weekday name via Zeller's congruence. -/
def dayName (dt : Date) : String :=
  let m := if dt.month ≤ 2 then dt.month + 12 else dt.month
  let y := if dt.month ≤ 2 then dt.year - 1 else dt.year
  let k := y % 100
  let j := y / 100
  let h := (dt.day + (13 * (m + 1)) / 5 + k + k / 4 + j / 4 + 5 * j) % 7
  match h with
  | 0 => "Saturday"
  | 1 => "Sunday"
  | 2 => "Monday"
  | 3 => "Tuesday"
  | 4 => "Wednesday"
  | 5 => "Thursday"
  | _ => "Friday"

/-- Python `str.title()` scanner: a letter starts a new word (is uppercased)
exactly when the previous character was not a letter; other letters are
lowercased; non-letters pass through.  This is the behaviour of pandas
`Series.str.title()` used on `category` and `author`. -/
def pyTitleAux : Bool → List Char → List Char
  | _, [] => []
  | prevAlpha, c :: cs =>
    (if c.isAlpha then (if prevAlpha then c.toLower else c.toUpper) else c) ::
      pyTitleAux c.isAlpha cs

/-- Python `str.title()` on a string. -/
def pyTitle (s : String) : String :=
  ⟨pyTitleAux false s.data⟩

/-- Modelled from the spec: title case with word boundaries on whitespace only
(first letter of each whitespace-separated word capitalized, remainder
lowercased).  Stated for comparison with the source's `pyTitle`. -/
def titleWhitespaceAux : Bool → List Char → List Char
  | _, [] => []
  | startWord, c :: cs =>
    if c.isWhitespace then c :: titleWhitespaceAux true cs
    else (if startWord then c.toUpper else c.toLower) :: titleWhitespaceAux false cs

/-- Modelled from the spec: whitespace-boundary title case on a string. -/
def titleWhitespace (s : String) : String :=
  ⟨titleWhitespaceAux true s.data⟩

/-- One raw CSV cell of a numeric-or-messy column: a string, a number, or null. -/
inductive RawVal where
  | str (s : String)
  | num (q : ℚ)
  | null
deriving DecidableEq, Repr

/-- One row of the extracted frame, before `transform_data`.  The `date` column
holds a string or null; `price`, `units_sold`, `rating` hold arbitrary raw
cells; the text columns hold strings or null. -/
structure RawRow where
  date : Option String
  price : RawVal
  units_sold : RawVal
  rating : RawVal
  category : Option String
  author : Option String
  title : Option String
deriving DecidableEq, Repr

/-- A row after the type-coercion step (step 1 of `transform_data`):
each column parsed, `none` marking a missing (NaN) value. -/
structure CoercedRow where
  date : Option Date
  price : Option ℚ
  units_sold : Option ℚ
  rating : Option ℚ
  category : Option String
  author : Option String
  title : Option String
deriving DecidableEq, Repr

/-- A validated, enriched fact row, as produced by `transform_data` and stored
in the `book_sales` relation. -/
structure FactRow where
  date : Date
  price : ℚ
  units_sold : ℚ
  rating : ℚ
  category : String
  author : String
  title : String
  revenue : ℚ
  month : String
  day_of_week : String
deriving DecidableEq, Repr

/-- `pd.to_datetime` on one cell with the default `errors='raise'`: null stays
missing, a parseable string becomes a date, an unparseable string raises. -/
def toDatetimeOpt (o : Option String) : Except String (Option Date) :=
  match o with
  | none => .ok none
  | some s =>
    match parseDate s with
    | some d => .ok (some d)
    | none => .error ("Unknown datetime string format: " ++ s)

/-- `pd.to_numeric` on one cell with the default `errors='raise'`: null stays
missing, a number passes through, a parseable string becomes a number, an
unparseable string raises. -/
def toNumeric (v : RawVal) : Except String (Option ℚ) :=
  match v with
  | .null => .ok none
  | .num q => .ok (some q)
  | .str s =>
    match parseNum s with
    | some q => .ok (some q)
    | none => .error ("Unable to parse string: " ++ s)

/-- Step 1 of `transform_data` on one row: coerce `date`, `price`,
`units_sold`, `rating` (in the source's column order); the first failing
coercion raises.  The source coerces column-by-column over the whole frame;
row-at-a-time coercion raises on exactly the same inputs and produces the same
coerced frame. -/
def coerceRow (r : RawRow) : Except String CoercedRow :=
  match toDatetimeOpt r.date with
  | .error e => .error e
  | .ok d =>
    match toNumeric r.price with
    | .error e => .error e
    | .ok p =>
      match toNumeric r.units_sold with
      | .error e => .error e
      | .ok u =>
        match toNumeric r.rating with
        | .error e => .error e
        | .ok rt => .ok ⟨d, p, u, rt, r.category, r.author, r.title⟩

/-- Step 1 of `transform_data` over the whole frame. -/
def coerceRows : List RawRow → Except String (List CoercedRow)
  | [] => .ok []
  | r :: rs =>
    match coerceRow r with
    | .error e => .error e
    | .ok c =>
      match coerceRows rs with
      | .error e => .error e
      | .ok cs => .ok (c :: cs)

/-- A coerced row with no missing value in any column (the rows `dropna` keeps). -/
def rowComplete (c : CoercedRow) : Bool :=
  c.date.isSome && c.price.isSome && c.units_sold.isSome && c.rating.isSome &&
    c.category.isSome && c.author.isSome && c.title.isSome

/-- Step 2 of `transform_data`: `df.dropna()` drops every row with a missing
value in any column. -/
def dropNulls (cs : List CoercedRow) : List CoercedRow :=
  cs.filter rowComplete

/-- Steps 3 and 4 of `transform_data` on one surviving row: derive
`revenue = price * units_sold`, `month`, `day_of_week`, then title-case
`category` and `author` (Python `str.title`), leaving `title` untouched.
Returns `none` exactly on rows with a missing value (which `dropna` removed). -/
def makeFact (c : CoercedRow) : Option FactRow :=
  match c.date, c.price, c.units_sold, c.rating, c.category, c.author, c.title with
  | some d, some p, some u, some rt, some cat, some a, some t =>
    some { date := d, price := p, units_sold := u, rating := rt,
           category := pyTitle cat, author := pyTitle a, title := t,
           revenue := p * u, month := monthName d.month, day_of_week := dayName d }
  | _, _, _, _, _, _, _ => none

/-- `transform_data`: coerce types (raising on unparseable values), drop rows
with missing values, derive `revenue`/`month`/`day_of_week`, title-case
`category`/`author`. -/
def transform_data (rows : List RawRow) : Except String (List FactRow) :=
  match coerceRows rows with
  | .error e => .error e
  | .ok cs => .ok ((dropNulls cs).filterMap makeFact)

/-- The whole per-row pipeline of `transform_data`: `none` when the row fails
coercion or is dropped by null elimination. -/
def rowFact (r : RawRow) : Option FactRow :=
  match coerceRow r with
  | .error _ => none
  | .ok c => makeFact c

/-- Whether an `Except` computation raised. -/
def isError {ε α : Type} (x : Except ε α) : Bool :=
  match x with
  | .error _ => true
  | .ok _ => false

/-- The raw row has a missing (null) value in at least one column. -/
def rawHasMissing (r : RawRow) : Prop :=
  r.date = none ∨ r.price = RawVal.null ∨ r.units_sold = RawVal.null ∨
    r.rating = RawVal.null ∨ r.category = none ∨ r.author = none ∨ r.title = none

instance (r : RawRow) : Decidable (rawHasMissing r) := by
  unfold rawHasMissing
  infer_instance

/-- The projection `df[['title', 'author', 'category']]` of one fact row. -/
abbrev BookTriple := String × String × String

/-- Project the dimension columns of a fact row, in the source's column order. -/
def bookTriple (f : FactRow) : BookTriple :=
  (f.title, f.author, f.category)

/-- `drop_duplicates(keep='first')`: keep each element's first occurrence,
dropping later repeats; `seen` accumulates the values already kept. -/
def keepFirstsAux {α : Type} [DecidableEq α] (seen : List α) : List α → List α
  | [] => []
  | x :: xs =>
    if x ∈ seen then keepFirstsAux seen xs
    else x :: keepFirstsAux (x :: seen) xs

/-- `unique_books = df[['title', 'author', 'category']].drop_duplicates()`:
the dimension candidates derived from the transformed frame.  Note the
deduplication key is the full three-column row, not `(title, author)`. -/
def dimCandidates (df : List FactRow) : List BookTriple :=
  keepFirstsAux [] (df.map bookTriple)

/-- One stored row of the `dim_books` relation. -/
structure DimRow where
  book_id : Nat
  title : String
  author : String
  category : String
deriving DecidableEq, Repr

/-- State of the `dim_books` relation: its rows, the next `SERIAL` surrogate
value, and whether a unique constraint or index on `(title, author)` exists.
The `CREATE TABLE` in `load_data` declares only `PRIMARY KEY (book_id)`,
so tables it creates carry `uniqueKey := false`. -/
structure DimState where
  rows : List DimRow
  nextId : Nat
  uniqueKey : Bool
deriving DecidableEq, Repr

/-- Whether `dim_books` already holds a row with the given natural key. -/
def hasKey (ds : DimState) (c : BookTriple) : Bool :=
  ds.rows.any (fun r => r.title == c.1 && r.author == c.2.1)

/-- PostgreSQL error message for an `ON CONFLICT` clause with no arbiter. -/
def onConflictErr : String :=
  "there is no unique or exclusion constraint matching the ON CONFLICT specification"

/-- `INSERT INTO dim_books ... ON CONFLICT (title, author) DO NOTHING` for one
candidate, per PostgreSQL's documented `ON CONFLICT` semantics: the arbiter
`(title, author)` must match a unique constraint or index, otherwise the
statement fails; with the arbiter present, an existing key is skipped and a
new key is inserted with the next surrogate id. -/
def insertDim (c : BookTriple) (ds : DimState) : DimState × Option String :=
  if ds.uniqueKey then
    if hasKey ds c then (ds, none)
    else ({ rows := ds.rows ++ [⟨ds.nextId, c.1, c.2.1, c.2.2⟩],
            nextId := ds.nextId + 1, uniqueKey := ds.uniqueKey }, none)
  else (ds, some onConflictErr)

/-- The insert loop of `load_data`: candidates are inserted one statement at a
time; the first raising statement aborts the loop, keeping the rows already
inserted. -/
def insertDims : List BookTriple → DimState → DimState × Option String
  | [], ds => (ds, none)
  | c :: cs, ds =>
    match insertDim c ds with
    | (ds1, none) => insertDims cs ds1
    | (ds1, some e) => (ds1, some e)

/-- Which of the two persistence operations of `load_data` an error came from. -/
inductive Stage where
  | fact
  | dimension
deriving DecidableEq, Repr

/-- The logical PostgreSQL store: the `book_sales` fact relation, the
`dim_books` dimension relation (`none` while a relation does not exist), and
an environment flag injecting a failure of the fact write (an unreachable or
failing store connection during `to_sql`). -/
structure Store where
  factRel : Option (List FactRow)
  dimRel : Option DimState
  factFail : Bool
deriving DecidableEq, Repr

/-- `CREATE TABLE IF NOT EXISTS dim_books (book_id SERIAL PRIMARY KEY, title
..., author ..., category ...)`: keep an existing relation, otherwise create
it empty, with its `SERIAL` sequence at 1 and no unique constraint on
`(title, author)` (the DDL declares none). -/
def dimInit (o : Option DimState) : DimState :=
  match o with
  | some d => d
  | none => { rows := [], nextId := 1, uniqueKey := false }

/-- `load_data(df, 'book_sales')`: `df.to_sql(..., if_exists='replace')`
entirely replaces the fact relation (raising aborts everything after it);
then `CREATE TABLE IF NOT EXISTS dim_books (book_id SERIAL PRIMARY KEY, ...)`
creates the dimension relation without any `(title, author)` constraint when
it is absent; then each deduplicated candidate is inserted with
`ON CONFLICT (title, author) DO NOTHING`.  Any raised error propagates to the
caller, tagged here with the operation it came from; effects already executed
stay committed. -/
def load_data (df : List FactRow) (s : Store) : Store × Option (Stage × String) :=
  if s.factFail then (s, some (Stage.fact, "store write failed"))
  else
    let s1 : Store := { s with factRel := some df }
    let ds0 : DimState := dimInit s1.dimRel
    let res := insertDims (dimCandidates df) ds0
    ({ s1 with dimRel := some res.1 }, res.2.map (fun e => (Stage.dimension, e)))

/-- One result cell of an analytics query (`NULL` models SQL's null). -/
inductive Cell where
  | s (v : String)
  | q (v : ℚ)
  | d (v : Date)
  | null
deriving DecidableEq, Repr

/-- One result row of an analytics query. -/
abbrev Row := List Cell

/-- SQL `SUM` aggregate: `NULL` over an empty set, the sum otherwise. -/
def sqlSum (l : List ℚ) : Cell :=
  if l.isEmpty then Cell.null else Cell.q l.sum

/-- Stable insertion (descending in `key`) used to model `ORDER BY ... DESC`. -/
def insDesc {α : Type} (key : α → ℚ) (a : α) : List α → List α
  | [] => [a]
  | b :: l => if key b ≤ key a then a :: b :: l else b :: insDesc key a l

/-- Stable insertion sort, descending in `key`; determinizes the tie order
that SQL leaves unspecified. -/
def insSortDesc {α : Type} (key : α → ℚ) : List α → List α
  | [] => []
  | a :: l => insDesc key a (insSortDesc key l)

/-- The distinct `title` values of the fact rows (`GROUP BY title` keys),
in first-occurrence order. -/
def titlesOf (facts : List FactRow) : List String :=
  keepFirstsAux [] (facts.map (fun f => f.title))

/-- The `top_selling_books` aggregates for one title: total units sold and
total revenue over the fact rows with that title. -/
def titleAgg (facts : List FactRow) (t : String) : String × ℚ × ℚ :=
  let g := facts.filter (fun f => f.title == t)
  (t, (g.map (fun f => f.units_sold)).sum, (g.map (fun f => f.revenue)).sum)

/-- `top_selling_books`: group `book_sales` by `title`, sum `units_sold` and
`revenue`, order by total units sold descending, `LIMIT 5`. -/
def top_selling (facts : List FactRow) : List (String × ℚ × ℚ) :=
  (insSortDesc (fun e => e.2.1) ((titlesOf facts).map (titleAgg facts))).take 5

/-- The distinct `category` values of the fact rows, in first-occurrence order. -/
def categoriesOf (facts : List FactRow) : List String :=
  keepFirstsAux [] (facts.map (fun f => f.category))

/-- The `category_performance` aggregates for one category: row count, total
units sold, total revenue, average rating. -/
def catAgg (facts : List FactRow) (c : String) : String × ℚ × ℚ × ℚ × ℚ :=
  let g := facts.filter (fun f => f.category == c)
  (c, (g.length : ℚ), (g.map (fun f => f.units_sold)).sum,
    (g.map (fun f => f.revenue)).sum,
    (g.map (fun f => f.rating)).sum / (g.length : ℚ))

/-- `category_performance`: group by `category`, aggregate count, sums and
average rating, order by total revenue descending. -/
def category_performance (facts : List FactRow) : List (String × ℚ × ℚ × ℚ × ℚ) :=
  insSortDesc (fun e => e.2.2.2.1) ((categoriesOf facts).map (catAgg facts))

/-- The distinct `date` values of the fact rows, in first-occurrence order. -/
def datesOf (facts : List FactRow) : List Date :=
  keepFirstsAux [] (facts.map (fun f => f.date))

/-- The `daily_sales_trend` aggregates for one date. -/
def dateAgg (facts : List FactRow) (d : Date) : Date × ℚ × ℚ :=
  let g := facts.filter (fun f => f.date == d)
  (d, (g.map (fun f => f.units_sold)).sum, (g.map (fun f => f.revenue)).sum)

/-- Numeric key giving the calendar order of valid dates. -/
def dateKey (d : Date) : ℚ :=
  ((d.year * 10000 + d.month * 100 + d.day : Nat) : ℚ)

/-- `daily_sales_trend`: group by `date`, sum `units_sold` and `revenue`,
order by `date` ascending (descending in the negated date key). -/
def daily_trend (facts : List FactRow) : List (Date × ℚ × ℚ) :=
  insSortDesc (fun e => -(dateKey e.1)) ((datesOf facts).map (dateAgg facts))

/-- Result row shape of `top_selling_books`. -/
def topRow (e : String × ℚ × ℚ) : Row :=
  [Cell.s e.1, Cell.q e.2.1, Cell.q e.2.2]

/-- Result row shape of `category_performance`. -/
def catRow (e : String × ℚ × ℚ × ℚ × ℚ) : Row :=
  [Cell.s e.1, Cell.q e.2.1, Cell.q e.2.2.1, Cell.q e.2.2.2.1, Cell.q e.2.2.2.2]

/-- Result row shape of `daily_sales_trend`. -/
def trendRow (e : Date × ℚ × ℚ) : Row :=
  [Cell.d e.1, Cell.q e.2.1, Cell.q e.2.2]

/-- `run_analytics()`: evaluate the four fixed queries against the `book_sales`
relation, returning results keyed by query name in declaration order; raises
when the fact relation is absent.  The queries read the store only. -/
def run_analytics (s : Store) : Except String (List (String × List Row)) :=
  match s.factRel with
  | none => .error "relation book_sales does not exist"
  | some facts =>
    .ok [("total_revenue", [[sqlSum (facts.map (fun f => f.revenue))]]),
         ("top_selling_books", (top_selling facts).map topRow),
         ("category_performance", (category_performance facts).map catRow),
         ("daily_sales_trend", (daily_trend facts).map trendRow)]

/-- A clean raw row used as a concrete test input. -/
def rowGood : RawRow :=
  ⟨some "2024-01-01", .num 10, .num 2, .num 4, some "fiction", some "jane doe", some "Book A"⟩

/-- A raw row with a null `price`, dropped by null elimination. -/
def rowNull : RawRow :=
  ⟨some "2024-01-02", .null, .num 1, .num 3, some "drama", some "bob", some "Book B"⟩

/-- A raw row whose `units_sold` is the unparseable string `N/A`. -/
def rowNA : RawRow :=
  ⟨some "2024-01-05", .num 10, .str "N/A", .num 4, some "fiction", some "jane doe", some "Book N"⟩

/-- A raw row whose `category` contains a hyphenated word. -/
def rowSci : RawRow :=
  ⟨some "2024-01-05", .num 15, .num 3, .num 4, some "sci-fi", some "ursula le guin", some "the DISPOSSESSED"⟩

/-- The fact row `transform_data` produces from `rowGood` (`revenue` written
as the product the code computes, `10 * 2 = 20`). -/
def factGood : FactRow :=
  ⟨⟨2024, 1, 1⟩, 10, 2, 4, "Fiction", "Jane Doe", "Book A", (10 : ℚ) * 2, "January", "Monday"⟩

/-- The fact row `transform_data` produces from `rowSci` (`revenue` written
as the product the code computes, `15 * 3 = 45`). -/
def factSci : FactRow :=
  ⟨⟨2024, 1, 5⟩, 15, 3, 4, "Sci-Fi", "Ursula Le Guin", "the DISPOSSESSED", (15 : ℚ) * 3,
    "January", "Friday"⟩

/-- A fact row sharing `factGood`'s natural key with a different category. -/
def factDrama : FactRow :=
  ⟨⟨2024, 1, 1⟩, 10, 2, 4, "Drama", "Jane Doe", "Book A", (10 : ℚ) * 2, "January", "Monday"⟩

/-- A fresh, healthy store: no relations yet, fact writes succeed. -/
def emptyStore : Store := ⟨none, none, false⟩

/-- A store whose fact write fails (e.g. the connection is down). -/
def failStore : Store := ⟨none, none, true⟩

lemma makeFact_isSome (c : CoercedRow) : (makeFact c).isSome = rowComplete c := by
  rcases c with ⟨d, p, u, rt, cat, a, t⟩
  cases d <;> cases p <;> cases u <;> cases rt <;> cases cat <;> cases a <;> cases t <;> rfl

lemma dropNulls_filterMap (cs : List CoercedRow) :
    (dropNulls cs).filterMap makeFact = cs.filterMap makeFact := by
  induction cs with
  | nil => rfl
  | cons c cs ih =>
    unfold dropNulls at ih ⊢
    rw [List.filter_cons]
    cases hm : makeFact c with
    | none =>
      have hc : rowComplete c = false := by rw [← makeFact_isSome, hm]; rfl
      simp [hc, List.filterMap_cons, hm, ih]
    | some f =>
      have hc : rowComplete c = true := by rw [← makeFact_isSome, hm]; rfl
      simp [hc, List.filterMap_cons, hm, ih]

lemma transform_ok_elim {rows : List RawRow} {out : List FactRow}
    (h : transform_data rows = .ok out) :
    ∃ cs, coerceRows rows = .ok cs ∧ out = cs.filterMap makeFact := by
  unfold transform_data at h
  cases hc : coerceRows rows with
  | error e => rw [hc] at h; exact Except.noConfusion h
  | ok cs =>
    rw [hc] at h
    injection h with h
    exact ⟨cs, rfl, by rw [← h, dropNulls_filterMap]⟩

lemma transform_filterMap {rows : List RawRow} {out : List FactRow}
    (h : transform_data rows = .ok out) : rows.filterMap rowFact = out := by
  obtain ⟨cs, hc, rfl⟩ := transform_ok_elim h
  clear h
  induction rows generalizing cs with
  | nil =>
    unfold coerceRows at hc
    injection hc with hc
    subst hc
    rfl
  | cons r rs ih =>
    unfold coerceRows at hc
    cases h1 : coerceRow r with
    | error e => rw [h1] at hc; exact Except.noConfusion hc
    | ok c =>
      rw [h1] at hc
      cases h2 : coerceRows rs with
      | error e => rw [h2] at hc; exact Except.noConfusion hc
      | ok cs2 =>
        rw [h2] at hc
        injection hc with hc
        subst hc
        have hr : rowFact r = makeFact c := by unfold rowFact; rw [h1]
        cases hm : makeFact c <;>
          simp [List.filterMap_cons, hr, hm, ih cs2 h2]

lemma makeFact_some_spec {c : CoercedRow} {f : FactRow} (h : makeFact c = some f) :
    (∃ cat, c.category = some cat ∧ f.category = pyTitle cat) ∧
    (∃ a, c.author = some a ∧ f.author = pyTitle a) ∧
    c.title = some f.title ∧
    f.revenue = f.price * f.units_sold := by
  rcases c with ⟨d, p, u, rt, cat, a, t⟩
  cases d <;> cases p <;> cases u <;> cases rt <;> cases cat <;> cases a <;> cases t <;>
    first
      | exact Option.noConfusion h
      | (injection h with h
         subst h
         exact ⟨⟨_, rfl, rfl⟩, ⟨_, rfl, rfl⟩, rfl, rfl⟩)

lemma coerceRow_ok_elim {r : RawRow} {c : CoercedRow} (h : coerceRow r = .ok c) :
    toDatetimeOpt r.date = .ok c.date ∧ toNumeric r.price = .ok c.price ∧
    toNumeric r.units_sold = .ok c.units_sold ∧ toNumeric r.rating = .ok c.rating ∧
    c.category = r.category ∧ c.author = r.author ∧ c.title = r.title := by
  unfold coerceRow at h
  cases h1 : toDatetimeOpt r.date with
  | error e => rw [h1] at h; exact Except.noConfusion h
  | ok d =>
    rw [h1] at h
    cases h2 : toNumeric r.price with
    | error e => rw [h2] at h; exact Except.noConfusion h
    | ok p =>
      rw [h2] at h
      cases h3 : toNumeric r.units_sold with
      | error e => rw [h3] at h; exact Except.noConfusion h
      | ok u =>
        rw [h3] at h
        cases h4 : toNumeric r.rating with
        | error e => rw [h4] at h; exact Except.noConfusion h
        | ok rt =>
          rw [h4] at h
          injection h with h
          subst h
          exact ⟨rfl, rfl, rfl, rfl, rfl, rfl, rfl⟩

lemma rowFact_some_elim {r : RawRow} {f : FactRow} (h : rowFact r = some f) :
    ∃ c, coerceRow r = .ok c ∧ makeFact c = some f := by
  unfold rowFact at h
  cases h1 : coerceRow r with
  | error e => rw [h1] at h; exact Option.noConfusion h
  | ok c => rw [h1] at h; exact ⟨c, rfl, h⟩

lemma coerceRow_error_of_units {r : RawRow} {s : String}
    (hu : r.units_sold = RawVal.str s) (hp : parseNum s = none) :
    ∃ e, coerceRow r = .error e := by
  have h3 : toNumeric r.units_sold = .error ("Unable to parse string: " ++ s) := by
    rw [hu]
    simp only [toNumeric, hp]
  unfold coerceRow
  cases h1 : toDatetimeOpt r.date with
  | error e => exact ⟨e, rfl⟩
  | ok d =>
    cases h2 : toNumeric r.price with
    | error e => exact ⟨e, rfl⟩
    | ok p => exact ⟨"Unable to parse string: " ++ s, by simp only [h3]⟩

lemma coerceRows_error_of_mem {rows : List RawRow} {r : RawRow}
    (hr : r ∈ rows) (he : ∃ e, coerceRow r = .error e) :
    ∃ e, coerceRows rows = .error e := by
  induction rows with
  | nil => exact absurd hr (List.not_mem_nil r)
  | cons a rs ih =>
    unfold coerceRows
    cases h1 : coerceRow a with
    | error e => exact ⟨e, rfl⟩
    | ok c =>
      rcases List.mem_cons.mp hr with h | h
      · subst h
        obtain ⟨e, he⟩ := he
        rw [he] at h1
        exact Except.noConfusion h1
      · obtain ⟨e2, he2⟩ := ih h
        exact ⟨e2, by simp only [he2]⟩

lemma rowComplete_false {c : CoercedRow}
    (h : c.date = none ∨ c.price = none ∨ c.units_sold = none ∨ c.rating = none ∨
      c.category = none ∨ c.author = none ∨ c.title = none) :
    makeFact c = none := by
  have hc : rowComplete c = false := by
    rcases h with h | h | h | h | h | h | h <;> simp [rowComplete, h]
  cases hm : makeFact c with
  | none => rfl
  | some f =>
    have hs := makeFact_isSome c
    rw [hm, hc] at hs
    exact Bool.noConfusion hs

lemma rowFact_none_of_missing {r : RawRow} (h : rawHasMissing r) :
    rowFact r = none := by
  unfold rowFact
  cases h1 : coerceRow r with
  | error e => rfl
  | ok c =>
    obtain ⟨g1, g2, g3, g4, g5, g6, g7⟩ := coerceRow_ok_elim h1
    apply rowComplete_false
    rcases h with h | h | h | h | h | h | h
    · left
      rw [h] at g1
      injection g1 with g1
      exact g1.symm
    · refine Or.inr (Or.inl ?_)
      rw [h] at g2
      injection g2 with g2
      exact g2.symm
    · refine Or.inr (Or.inr (Or.inl ?_))
      rw [h] at g3
      injection g3 with g3
      exact g3.symm
    · refine Or.inr (Or.inr (Or.inr (Or.inl ?_)))
      rw [h] at g4
      injection g4 with g4
      exact g4.symm
    · refine Or.inr (Or.inr (Or.inr (Or.inr (Or.inl ?_))))
      rw [g5]
      exact h
    · refine Or.inr (Or.inr (Or.inr (Or.inr (Or.inr (Or.inl ?_)))))
      rw [g6]
      exact h
    · refine Or.inr (Or.inr (Or.inr (Or.inr (Or.inr (Or.inr ?_)))))
      rw [g7]
      exact h

lemma keepFirstsAux_mem {α : Type} [DecidableEq α] (seen l : List α) (x : α) :
    x ∈ keepFirstsAux seen l ↔ x ∈ l ∧ x ∉ seen := by
  induction l generalizing seen with
  | nil => simp [keepFirstsAux]
  | cons a l ih =>
    unfold keepFirstsAux
    by_cases ha : a ∈ seen
    · rw [if_pos ha, ih]
      constructor
      · rintro ⟨hx, hn⟩
        exact ⟨List.mem_cons_of_mem a hx, hn⟩
      · rintro ⟨hx, hn⟩
        rcases List.mem_cons.mp hx with rfl | hx
        · exact absurd ha hn
        · exact ⟨hx, hn⟩
    · rw [if_neg ha]
      constructor
      · intro hx
        rcases List.mem_cons.mp hx with rfl | hx
        · exact ⟨List.mem_cons_self _ _, ha⟩
        · rw [ih] at hx
          obtain ⟨h1, h2⟩ := hx
          exact ⟨List.mem_cons_of_mem a h1, fun hs => h2 (List.mem_cons_of_mem a hs)⟩
      · rintro ⟨hx, hn⟩
        rcases List.mem_cons.mp hx with rfl | hx
        · exact List.mem_cons_self _ _
        · by_cases hxa : x = a
          · subst hxa
            exact List.mem_cons_self _ _
          · apply List.mem_cons_of_mem
            rw [ih]
            refine ⟨hx, fun hs => ?_⟩
            rcases List.mem_cons.mp hs with h | h
            · exact hxa h
            · exact hn h

lemma keepFirstsAux_nodup {α : Type} [DecidableEq α] (seen l : List α) :
    (keepFirstsAux seen l).Nodup := by
  induction l generalizing seen with
  | nil => exact List.nodup_nil
  | cons a l ih =>
    unfold keepFirstsAux
    by_cases ha : a ∈ seen
    · rw [if_pos ha]
      exact ih seen
    · rw [if_neg ha]
      refine List.nodup_cons.mpr ⟨fun hmem => ?_, ih _⟩
      rw [keepFirstsAux_mem] at hmem
      exact hmem.2 (List.mem_cons_self a seen)

lemma keepFirstsAux_sublist {α : Type} [DecidableEq α] (seen l : List α) :
    (keepFirstsAux seen l).Sublist l := by
  induction l generalizing seen with
  | nil => exact List.Sublist.refl []
  | cons a l ih =>
    unfold keepFirstsAux
    by_cases ha : a ∈ seen
    · rw [if_pos ha]
      exact (ih seen).cons a
    · rw [if_neg ha]
      exact (ih _).cons₂ a

lemma insertDim_flag (c : BookTriple) (ds : DimState) :
    ((insertDim c ds).1).uniqueKey = ds.uniqueKey := by
  cases hq : ds.uniqueKey <;> cases hk : hasKey ds c <;> simp [insertDim, hq, hk]

lemma insertDim_true_none (c : BookTriple) (ds : DimState) (hq : ds.uniqueKey = true) :
    (insertDim c ds).2 = none := by
  cases hk : hasKey ds c <;> simp [insertDim, hq, hk]

lemma insertDim_skip (c : BookTriple) (ds : DimState) (hq : ds.uniqueKey = true)
    (hk : hasKey ds c = true) : insertDim c ds = (ds, none) := by
  simp [insertDim, hq, hk]

lemma hasKey_insertDim_mono (c x : BookTriple) (ds : DimState) (h : hasKey ds x = true) :
    hasKey (insertDim c ds).1 x = true := by
  unfold insertDim
  by_cases hq : ds.uniqueKey = true
  · by_cases hk : hasKey ds c = true
    · rw [if_pos hq, if_pos hk]
      exact h
    · rw [if_pos hq, if_neg hk]
      show ((ds.rows ++ ([⟨ds.nextId, c.1, c.2.1, c.2.2⟩] : List DimRow)).any
        fun r => r.title == x.1 && r.author == x.2.1) = true
      unfold hasKey at h
      rw [List.any_append, h, Bool.true_or]
  · rw [if_neg hq]
    exact h

lemma hasKey_insertDim_self (c : BookTriple) (ds : DimState) (hq : ds.uniqueKey = true) :
    hasKey (insertDim c ds).1 c = true := by
  unfold insertDim
  by_cases hk : hasKey ds c = true
  · rw [if_pos hq, if_pos hk]
    exact hk
  · rw [if_pos hq, if_neg hk]
    show ((ds.rows ++ ([⟨ds.nextId, c.1, c.2.1, c.2.2⟩] : List DimRow)).any
      fun r => r.title == c.1 && r.author == c.2.1) = true
    rw [List.any_append]
    have hone : (([⟨ds.nextId, c.1, c.2.1, c.2.2⟩] : List DimRow).any
        (fun r => r.title == c.1 && r.author == c.2.1)) = true := by
      simp
    rw [hone, Bool.or_true]

lemma insertDims_false (cs : List BookTriple) (ds : DimState) (hq : ds.uniqueKey = false) :
    (insertDims cs ds).1 = ds := by
  cases cs with
  | nil => rfl
  | cons c cs =>
    unfold insertDims
    have h1 : insertDim c ds = (ds, some onConflictErr) := by simp [insertDim, hq]
    rw [h1]

lemma insertDims_flag (cs : List BookTriple) (ds : DimState) :
    ((insertDims cs ds).1).uniqueKey = ds.uniqueKey := by
  induction cs generalizing ds with
  | nil => rfl
  | cons c cs ih =>
    unfold insertDims
    rcases hE : insertDim c ds with ⟨ds1, e⟩
    have hf : ds1.uniqueKey = ds.uniqueKey := by
      have h2 := insertDim_flag c ds
      rw [hE] at h2
      exact h2
    cases e with
    | none =>
      show ((insertDims cs ds1).1).uniqueKey = ds.uniqueKey
      rw [← hf]
      exact ih ds1
    | some e2 => exact hf

lemma insertDims_hasKey_mono (cs : List BookTriple) (x : BookTriple) (ds : DimState)
    (h : hasKey ds x = true) : hasKey (insertDims cs ds).1 x = true := by
  induction cs generalizing ds with
  | nil => exact h
  | cons c cs ih =>
    unfold insertDims
    rcases hE : insertDim c ds with ⟨ds1, e⟩
    have h1 : hasKey ds1 x = true := by
      have h2 := hasKey_insertDim_mono c x ds h
      rw [hE] at h2
      exact h2
    cases e with
    | none => exact ih ds1 h1
    | some e2 => exact h1

lemma insertDims_mem_hasKey (cs : List BookTriple) (c : BookTriple) (ds : DimState)
    (hq : ds.uniqueKey = true) (hc : c ∈ cs) :
    hasKey (insertDims cs ds).1 c = true := by
  induction cs generalizing ds with
  | nil => exact absurd hc (List.not_mem_nil c)
  | cons a cs ih =>
    unfold insertDims
    rcases hE : insertDim a ds with ⟨ds1, e⟩
    have hnone : e = none := by
      have h2 := insertDim_true_none a ds hq
      rw [hE] at h2
      exact h2
    subst hnone
    have hf : ds1.uniqueKey = true := by
      have h2 := insertDim_flag a ds
      rw [hE] at h2
      exact h2.trans hq
    rcases List.mem_cons.mp hc with rfl | hmem
    · have hself : hasKey ds1 c = true := by
        have h2 := hasKey_insertDim_self c ds hq
        rw [hE] at h2
        exact h2
      exact insertDims_hasKey_mono cs c ds1 hself
    · exact ih ds1 hf hmem

lemma insertDims_skip (cs : List BookTriple) (ds : DimState) (hq : ds.uniqueKey = true)
    (hall : ∀ c ∈ cs, hasKey ds c = true) : insertDims cs ds = (ds, none) := by
  induction cs with
  | nil => rfl
  | cons a cs ih =>
    unfold insertDims
    have h1 : insertDim a ds = (ds, none) :=
      insertDim_skip a ds hq (hall a (List.mem_cons_self a cs))
    rw [h1]
    exact ih (fun c hc => hall c (List.mem_cons_of_mem a hc))

lemma insertDims_idem (cs : List BookTriple) (ds : DimState) :
    (insertDims cs ((insertDims cs ds).1)).1 = (insertDims cs ds).1 := by
  cases hq : ds.uniqueKey
  · have h1 : (insertDims cs ds).1 = ds := insertDims_false cs ds hq
    rw [h1]
    exact insertDims_false cs ds hq
  · have hf : ((insertDims cs ds).1).uniqueKey = true := by
      rw [insertDims_flag]
      exact hq
    have hall : ∀ c ∈ cs, hasKey (insertDims cs ds).1 c = true :=
      fun c hc => insertDims_mem_hasKey cs c ds hq hc
    rw [insertDims_skip cs _ hf hall]

lemma load_data_fail (df : List FactRow) (s : Store) (hf : s.factFail = true) :
    load_data df s = (s, some (Stage.fact, "store write failed")) := by
  simp [load_data, hf]

lemma load_data_ok (df : List FactRow) (s : Store) (hf : s.factFail = false) :
    load_data df s =
      (⟨some df, some (insertDims (dimCandidates df) (dimInit s.dimRel)).1, false⟩,
        (insertDims (dimCandidates df) (dimInit s.dimRel)).2.map
          (fun e => (Stage.dimension, e))) := by
  simp [load_data, hf]

lemma dimInit_some (d : DimState) : dimInit (some d) = d := rfl

lemma mem_insDesc {α : Type} (key : α → ℚ) (a : α) (l : List α) (x : α) :
    x ∈ insDesc key a l ↔ x = a ∨ x ∈ l := by
  induction l with
  | nil => simp [insDesc]
  | cons b l ih =>
    unfold insDesc
    by_cases h : key b ≤ key a
    · rw [if_pos h]
      exact List.mem_cons
    · rw [if_neg h]
      rw [List.mem_cons, ih, List.mem_cons]
      tauto

lemma perm_insDesc {α : Type} (key : α → ℚ) (a : α) (l : List α) :
    List.Perm (insDesc key a l) (a :: l) := by
  induction l with
  | nil => exact List.Perm.refl [a]
  | cons b l ih =>
    unfold insDesc
    by_cases h : key b ≤ key a
    · rw [if_pos h]
    · rw [if_neg h]
      exact (ih.cons b).trans (List.Perm.swap a b l)

lemma pairwise_insDesc {α : Type} (key : α → ℚ) (a : α) (l : List α)
    (h : l.Pairwise (fun x y => key y ≤ key x)) :
    (insDesc key a l).Pairwise (fun x y => key y ≤ key x) := by
  induction l with
  | nil => simp [insDesc]
  | cons b l ih =>
    rw [List.pairwise_cons] at h
    obtain ⟨hb, hl⟩ := h
    unfold insDesc
    by_cases hba : key b ≤ key a
    · rw [if_pos hba]
      refine List.pairwise_cons.mpr ⟨?_, List.pairwise_cons.mpr ⟨hb, hl⟩⟩
      intro y hy
      rcases List.mem_cons.mp hy with rfl | hy
      · exact hba
      · exact le_trans (hb y hy) hba
    · rw [if_neg hba]
      refine List.pairwise_cons.mpr ⟨?_, ih hl⟩
      intro y hy
      rw [mem_insDesc] at hy
      rcases hy with rfl | hy
      · exact le_of_not_le hba
      · exact hb y hy

lemma pairwise_insSortDesc {α : Type} (key : α → ℚ) (l : List α) :
    (insSortDesc key l).Pairwise (fun x y => key y ≤ key x) := by
  induction l with
  | nil => simp [insSortDesc]
  | cons a l ih => exact pairwise_insDesc key a _ ih

lemma perm_insSortDesc {α : Type} (key : α → ℚ) (l : List α) :
    List.Perm (insSortDesc key l) l := by
  induction l with
  | nil => exact List.Perm.refl []
  | cons a l ih => exact (perm_insDesc key a _).trans (ih.cons a)

lemma map_fst_titleAgg (facts : List FactRow) (l : List String) :
    (l.map (titleAgg facts)).map Prod.fst = l := by
  induction l with
  | nil => rfl
  | cons t l ih => simp [titleAgg, ih]

lemma top_selling_len (facts : List FactRow) : (top_selling facts).length ≤ 5 := by
  unfold top_selling
  rw [List.length_take]
  exact min_le_left _ _

lemma top_selling_sorted (facts : List FactRow) :
    (top_selling facts).Pairwise (fun x y => y.2.1 ≤ x.2.1) := by
  unfold top_selling
  have hp := pairwise_insSortDesc (fun e => e.2.1) ((titlesOf facts).map (titleAgg facts))
  exact List.Pairwise.sublist (List.take_sublist _ _) hp

lemma top_selling_mem_agg (facts : List FactRow) (e : String × ℚ × ℚ)
    (he : e ∈ top_selling facts) : e = titleAgg facts e.1 := by
  unfold top_selling at he
  have h1 : e ∈ insSortDesc (fun x => x.2.1) ((titlesOf facts).map (titleAgg facts)) :=
    (List.take_sublist _ _).subset he
  have h2 : e ∈ (titlesOf facts).map (titleAgg facts) :=
    (perm_insSortDesc _ _).subset h1
  obtain ⟨t, ht, he2⟩ := List.mem_map.mp h2
  rw [← he2]
  rfl

lemma top_selling_nodup (facts : List FactRow) :
    ((top_selling facts).map Prod.fst).Nodup := by
  unfold top_selling
  rw [List.map_take]
  have hperm : List.Perm
      ((insSortDesc (fun e => e.2.1) ((titlesOf facts).map (titleAgg facts))).map Prod.fst)
      (((titlesOf facts).map (titleAgg facts)).map Prod.fst) :=
    (perm_insSortDesc _ _).map Prod.fst
  have hn : (((titlesOf facts).map (titleAgg facts)).map Prod.fst).Nodup := by
    rw [map_fst_titleAgg]
    exact keepFirstsAux_nodup [] _
  have hn2 := hperm.symm.nodup hn
  exact hn2.sublist (List.take_sublist _ _)

/-- C1 (corrected): a row containing a value that cannot be coerced — e.g.
`units_sold` the string `N/A` — makes `transform_data` raise for the whole
table (`pd.to_numeric` defaults to `errors='raise'`); the value does not
become a missing value to be dropped row-wise. -/
theorem transform_raises_on_unparseable (rows : List RawRow) (r : RawRow) (s : String)
    (hr : r ∈ rows) (hu : r.units_sold = RawVal.str s) (hp : parseNum s = none) :
    isError (transform_data rows) = true := by
  obtain ⟨e, he⟩ := coerceRows_error_of_mem hr (coerceRow_error_of_units hu hp)
  unfold transform_data
  rw [he]
  rfl

/-- C1 counterexample: on a table whose single row has `units_sold` equal to
`N/A` (the claim's own example) and every other value clean, `transform_data`
raises instead of dropping the row and returning an empty table. -/
theorem transform_na_raises_cex :
    transform_data [rowNA] = Except.error "Unable to parse string: N/A" := by rfl

/-- C1 witness: the hypotheses of `transform_raises_on_unparseable` hold at a
concrete table. -/
theorem transform_raises_on_unparseable_w : isError (transform_data [rowNA]) = true :=
  transform_raises_on_unparseable [rowNA] rowNA "N/A" (List.mem_singleton.mpr rfl) rfl rfl

/-- C2 (confirmed): every row of a successful `transform_data` output
satisfies `revenue = price * units_sold` exactly (numbers modelled as exact
rationals). -/
theorem revenue_exact (rows : List RawRow) (out : List FactRow)
    (h : transform_data rows = .ok out) :
    ∀ f ∈ out, f.revenue = f.price * f.units_sold := by
  intro f hf
  rw [← transform_filterMap h] at hf
  obtain ⟨r, hr, hrf⟩ := List.mem_filterMap.mp hf
  obtain ⟨c, hc, hm⟩ := rowFact_some_elim hrf
  exact (makeFact_some_spec hm).2.2.2

/-- C2 witness: `revenue_exact` applied at a concrete table. -/
theorem revenue_exact_w : factGood.revenue = factGood.price * factGood.units_sold :=
  revenue_exact [rowGood] [factGood] rfl factGood (List.mem_singleton.mpr rfl)

/-- C3 (confirmed): a successful `transform_data` output is never longer than
the input, and every output row comes from an input row with no missing value
in any column — so rows with a null value are entirely absent. -/
theorem null_rows_dropped (rows : List RawRow) (out : List FactRow)
    (h : transform_data rows = .ok out) :
    out.length ≤ rows.length ∧
      ∀ f ∈ out, ∃ r ∈ rows, rowFact r = some f ∧ ¬rawHasMissing r := by
  have hfm := transform_filterMap h
  constructor
  · rw [← hfm]
    exact List.length_filterMap_le _ _
  · intro f hf
    rw [← hfm] at hf
    obtain ⟨r, hr, hrf⟩ := List.mem_filterMap.mp hf
    refine ⟨r, hr, hrf, fun hmiss => ?_⟩
    rw [rowFact_none_of_missing hmiss] at hrf
    exact Option.noConfusion hrf

/-- C3 witness: `null_rows_dropped` applied at a concrete table containing a
row with a null `price`. -/
theorem null_rows_dropped_w :
    ([factGood] : List FactRow).length ≤ ([rowGood, rowNull] : List RawRow).length :=
  (null_rows_dropped [rowGood, rowNull] [factGood] rfl).1

/-- C4 (corrected): in every `transform_data` output row, `category` and
`author` are rewritten with Python `str.title()` semantics — a new word starts
after any non-letter character, not only after whitespace — and `title` is
passed through unchanged. -/
theorem text_normalization_python_title (rows : List RawRow) (out : List FactRow)
    (h : transform_data rows = .ok out) :
    ∀ f ∈ out, ∃ r ∈ rows, ∃ cat a t, r.category = some cat ∧ r.author = some a ∧
      r.title = some t ∧ f.category = pyTitle cat ∧ f.author = pyTitle a ∧ f.title = t := by
  intro f hf
  rw [← transform_filterMap h] at hf
  obtain ⟨r, hr, hrf⟩ := List.mem_filterMap.mp hf
  obtain ⟨c, hc, hm⟩ := rowFact_some_elim hrf
  obtain ⟨⟨cat, hcat, hfcat⟩, ⟨a, ha, hfa⟩, ht, _⟩ := makeFact_some_spec hm
  obtain ⟨_, _, _, _, g5, g6, g7⟩ := coerceRow_ok_elim hc
  refine ⟨r, hr, cat, a, f.title, ?_, ?_, ?_, hfcat, hfa, rfl⟩
  · rw [← g5]
    exact hcat
  · rw [← g6]
    exact ha
  · rw [← g7]
    exact ht

/-- C4 counterexample: the category `sci-fi` is rewritten by the code to
`Sci-Fi` (Python `str.title()`, word boundary at the hyphen), while
whitespace-boundary title case — what the claim states — yields `Sci-fi`. -/
theorem title_case_whitespace_cex :
    transform_data [rowSci] = Except.ok [factSci] ∧
      factSci.category = pyTitle "sci-fi" ∧
      pyTitle "sci-fi" = "Sci-Fi" ∧
      titleWhitespace "sci-fi" = "Sci-fi" ∧
      ("Sci-Fi" : String) ≠ "Sci-fi" := by
  refine ⟨rfl, rfl, rfl, rfl, ?_⟩
  decide

/-- C4 witness: `text_normalization_python_title` applied at a concrete
table. -/
theorem text_normalization_python_title_w :
    factGood.category = pyTitle "fiction" ∧ factGood.author = pyTitle "jane doe" := by
  obtain ⟨r, hr, cat, a, t, hcat, ha, ht, hfcat, hfa, hft⟩ :=
    text_normalization_python_title [rowGood] [factGood] rfl factGood
      (List.mem_singleton.mpr rfl)
  have hre : r = rowGood := List.mem_singleton.mp hr
  subst hre
  have hc2 : cat = "fiction" := by
    have h2 : (some "fiction" : Option String) = some cat := hcat
    injection h2 with h2
    exact h2.symm
  have ha2 : a = "jane doe" := by
    have h3 : (some "jane doe" : Option String) = some a := ha
    injection h3 with h3
    exact h3.symm
  subst hc2
  subst ha2
  exact ⟨hfcat, hfa⟩

/-- C5 (corrected): the dimension-candidate sequence deduplicates by the full
`(title, author, category)` row (first occurrence kept, extraction order
preserved, each distinct triple exactly once) — not by the natural key
`(title, author)`. -/
theorem dim_candidates_full_triple_dedup (facts : List FactRow) :
    (dimCandidates facts).Nodup ∧ (dimCandidates facts).Sublist (facts.map bookTriple) ∧
      ∀ t, t ∈ dimCandidates facts ↔ t ∈ facts.map bookTriple := by
  refine ⟨keepFirstsAux_nodup [] _, keepFirstsAux_sublist [] _, fun t => ?_⟩
  unfold dimCandidates
  rw [keepFirstsAux_mem]
  simp

/-- C5 counterexample: two fact rows sharing `(title, author)` with different
categories produce two candidates carrying the same natural key — a second
candidate for the key is produced, contrary to the claim. -/
theorem dim_candidates_key_collision_cex :
    dimCandidates [factGood, factDrama] =
        [("Book A", "Jane Doe", "Fiction"), ("Book A", "Jane Doe", "Drama")] ∧
      (dimCandidates [factGood, factDrama]).map (fun t => (t.1, t.2.1)) =
        [("Book A", "Jane Doe"), ("Book A", "Jane Doe")] :=
  ⟨rfl, rfl⟩

lemma load_data_idem (df : List FactRow) (s : Store) :
    (load_data df (load_data df s).1).1 = (load_data df s).1 := by
  cases hf : s.factFail
  · have h1 : (load_data df s).1 =
        ⟨some df, some ((insertDims (dimCandidates df) (dimInit s.dimRel)).1), false⟩ := by
      rw [load_data_ok df s hf]
    rw [h1]
    have h2 : (load_data df
        (⟨some df, some ((insertDims (dimCandidates df) (dimInit s.dimRel)).1),
          false⟩ : Store)).1 =
        ⟨some df, some ((insertDims (dimCandidates df)
          (dimInit (some ((insertDims (dimCandidates df) (dimInit s.dimRel)).1)))).1),
          false⟩ := by
      rw [load_data_ok df _ rfl]
    rw [h2, dimInit_some, insertDims_idem]
  · have h1 : (load_data df s).1 = s := by rw [load_data_fail df s hf]
    rw [h1, load_data_fail df s hf]

/-- C6 (code_bug evaluation): loading one transformed row into a fresh store
creates `dim_books` without any `(title, author)` constraint, and the
`ON CONFLICT (title, author)` insert then fails with PostgreSQL's
no-matching-constraint error, leaving the dimension relation empty — nothing
ever enforces the claimed uniqueness. -/
theorem dim_load_fails_without_unique_constraint :
    (load_data [factGood] emptyStore).2 = some (Stage.dimension, onConflictErr) ∧
      (load_data [factGood] emptyStore).1 =
        ⟨some [factGood], some ⟨[], 1, false⟩, false⟩ :=
  ⟨rfl, rfl⟩

/-- C7 (confirmed): running the pipeline twice on identical source data is
idempotent on the store — the second `load_data` of the same transformed frame
leaves the whole store state, in particular the dimension relation, exactly as
after the first run. -/
theorem pipeline_idempotent (rows : List RawRow) (df : List FactRow) (s : Store)
    (h : transform_data rows = .ok df) :
    (load_data df (load_data df s).1).1 = (load_data df s).1 ∧
      ((load_data df (load_data df s).1).1).dimRel = ((load_data df s).1).dimRel := by
  refine ⟨load_data_idem df s, ?_⟩
  rw [load_data_idem df s]

/-- C7 witness: `pipeline_idempotent` applied to a concrete source table and
a fresh store. -/
theorem pipeline_idempotent_w :
    (load_data [factGood] (load_data [factGood] emptyStore).1).1 =
      (load_data [factGood] emptyStore).1 :=
  (pipeline_idempotent [rowGood] [factGood] emptyStore rfl).1

/-- C8 (confirmed): when the fact write fails, `load_data` reports the fact
stage and leaves the store untouched (the dimension load is skipped); when the
fact write succeeds, the fact relation is committed to the new frame even if a
dimension-stage error is reported, and any reported error names the dimension
stage — the two loads are independent units of work. -/
theorem load_error_asymmetry (df : List FactRow) (s : Store) :
    (s.factFail = true → load_data df s = (s, some (Stage.fact, "store write failed"))) ∧
      (s.factFail = false → (load_data df s).1.factRel = some df ∧
        ∀ e, (load_data df s).2 = some e → e.1 = Stage.dimension) := by
  constructor
  · intro hf
    exact load_data_fail df s hf
  · intro hf
    rw [load_data_ok df s hf]
    constructor
    · rfl
    · intro e he
      have he2 : ((insertDims (dimCandidates df) (dimInit s.dimRel)).2).map
          (fun e2 => (Stage.dimension, e2)) = some e := he
      rcases hx : (insertDims (dimCandidates df) (dimInit s.dimRel)).2 with _ | e3
      · rw [hx] at he2
        exact Option.noConfusion he2
      · rw [hx] at he2
        injection he2 with he2
        rw [← he2]

/-- C8 witness: `load_error_asymmetry` applied to a failing store and to a
healthy store. -/
theorem load_error_asymmetry_w :
    load_data [factGood] failStore = (failStore, some (Stage.fact, "store write failed")) ∧
      (load_data [factGood] emptyStore).1.factRel = some [factGood] :=
  ⟨(load_error_asymmetry [factGood] failStore).1 rfl,
    ((load_error_asymmetry [factGood] emptyStore).2 rfl).1⟩

/-- C9 (confirmed): a successful `run_analytics` returns the four fixed query
names in declaration order; the result depends only on the fact relation; and
`top_selling_books` is grouped by title (each entry the title's aggregate,
titles pairwise distinct), sorted by total units sold descending, and
truncated to at most 5 rows. -/
theorem run_analytics_contract (s : Store) (m : List (String × List Row))
    (h : run_analytics s = .ok m) :
    m.map Prod.fst =
        ["total_revenue", "top_selling_books", "category_performance",
          "daily_sales_trend"] ∧
      (∀ s2 : Store, s2.factRel = s.factRel → run_analytics s2 = run_analytics s) ∧
      ∀ facts, s.factRel = some facts →
        List.lookup "top_selling_books" m = some ((top_selling facts).map topRow) ∧
          (top_selling facts).length ≤ 5 ∧
          (top_selling facts).Pairwise (fun x y => y.2.1 ≤ x.2.1) ∧
          (∀ e ∈ top_selling facts, e = titleAgg facts e.1) ∧
          ((top_selling facts).map Prod.fst).Nodup := by
  unfold run_analytics at h
  cases hf : s.factRel with
  | none =>
    rw [hf] at h
    exact Except.noConfusion h
  | some facts0 =>
    rw [hf] at h
    injection h with h
    subst h
    refine ⟨rfl, ?_, ?_⟩
    · intro s2 h2
      unfold run_analytics
      rw [h2, hf]
    · intro facts hfa
      injection hfa with hfa
      subst hfa
      exact ⟨rfl, top_selling_len _, top_selling_sorted _, top_selling_mem_agg _,
        top_selling_nodup _⟩

/-- C9 witness: `run_analytics_contract` applied at a concrete store holding
one fact row. -/
theorem run_analytics_contract_w :
    (run_analytics (⟨some [factGood], none, false⟩ : Store)).map (List.map Prod.fst) =
      Except.ok ["total_revenue", "top_selling_books", "category_performance",
        "daily_sales_trend"] := by
  have hm : ∃ m, run_analytics (⟨some [factGood], none, false⟩ : Store) = .ok m := by
    unfold run_analytics
    exact ⟨_, rfl⟩
  obtain ⟨m, hm⟩ := hm
  have h2 := (run_analytics_contract _ m hm).1
  rw [hm]
  show Except.ok (m.map Prod.fst) = _
  rw [h2]

/-- C10 (confirmed): `transform_data` is an order-preserving selection — a
successful output equals the input rows mapped row-by-row through the per-row
pipeline `rowFact`, with the dropped rows removed in place. -/
theorem transform_order_preserving (rows : List RawRow) (out : List FactRow)
    (h : transform_data rows = .ok out) :
    rows.filterMap rowFact = out :=
  transform_filterMap h

/-- C10 witness: `transform_order_preserving` applied at a concrete table in
which the middle row is dropped. -/
theorem transform_order_preserving_w :
    ([rowGood, rowNull, rowSci] : List RawRow).filterMap rowFact = [factGood, factSci] :=
  transform_order_preserving [rowGood, rowNull, rowSci] [factGood, factSci] rfl
